import Mathlib

/-!
Verification of the cart-state engine of this repository against its
natural-language specification.

The JavaScript sources are shallowly embedded: JS numbers are modeled as
rationals (ℚ); where the backend checkout performs arithmetic on a possibly
absent object property, the resulting NaN propagation is modeled explicitly
by the type JNum below.  Fallible code returns Except.  Recursions over
strings use an explicit fuel argument equal to the string length plus one,
which strictly bounds the number of steps each scanner can take, so the
fueled functions coincide with the unfueled JS loops.
-/

namespace CartEngine

/-! ## String sanitization primitives

Embedded from frontend/src/security/sanitizer.js (sanitize.text, basic
fallback branch, DOMPurify being an external library) and from
server/middleware/validation.js (sanitizeString).  Both use the regexes
/<script\b[^<]*(?:(?!<\/script>)<[^<]*)*<\/script>/gi  and  /<[^>]*>/g .
-/

/-- JS regex word character class \w = [A-Za-z0-9_], used for the \b boundary. -/
def isWordChar (c : Char) : Bool :=
  c.isAlphanum || c == '_'

/-- Case-insensitive prefix test on character lists (the regexes carry the i flag). -/
def startsWithCI : List Char → List Char → Bool
  | [], _ => true
  | _ :: _, [] => false
  | p :: ps, c :: cs => (c.toLower == p.toLower) && startsWithCI ps cs

/-- The \b boundary after the literal "script": the next character is not a
word character (or the input ends). -/
def scriptBoundary : List Char → Bool
  | [] => true
  | d :: _ => !(isWordChar d)

/-- Scan for the first case-insensitive occurrence of the closing literal
"</script>"; return the remainder of the input after it, if found. -/
def dropCloseScript : Nat → List Char → Option (List Char)
  | 0, _ => none
  | _, [] => none
  | fuel + 1, c :: rest =>
    if c == '<' && startsWithCI "/script>".data rest then some (rest.drop 8)
    else dropCloseScript fuel rest

/-- One global pass of the script-element regex: a match starts at a literal
"<script" (case-insensitive) followed by a word boundary, and extends to the
first following "</script>"; matched spans are removed.  If no closing tag
follows, there is no match at this position and scanning resumes one
character later, exactly as the JS engine does. -/
def stripScriptsGo : Nat → List Char → List Char
  | 0, cs => cs
  | _, [] => []
  | fuel + 1, c :: rest =>
    if c == '<' && startsWithCI "script".data rest && scriptBoundary (rest.drop 6) then
      match dropCloseScript (fuel + 1) (rest.drop 6) with
      | some rest2 => stripScriptsGo fuel rest2
      | none => c :: stripScriptsGo fuel rest
    else c :: stripScriptsGo fuel rest

/-- One global pass of the tag regex /<[^>]*>/g: from each unconsumed '<',
the match runs through the first following '>'; if no '>' follows, the '<'
is kept and scanning resumes after it. -/
def stripTagsGo : Nat → List Char → List Char
  | 0, cs => cs
  | _, [] => []
  | fuel + 1, c :: rest =>
    if c == '<' then
      let pre := rest.takeWhile (fun d => !(d == '>'))
      match rest.drop pre.length with
      | '>' :: rest2 => stripTagsGo fuel rest2
      | _ => c :: stripTagsGo fuel rest
    else c :: stripTagsGo fuel rest

/-- JS String.prototype.trim: drop whitespace from both ends (the ASCII
whitespace characters; the full JS WhiteSpace/LineTerminator set restricted
to the inputs considered here). -/
def trimChars (cs : List Char) : List Char :=
  ((cs.dropWhile Char.isWhitespace).reverse.dropWhile Char.isWhitespace).reverse

/-- sanitize.text (fallback branch): strip script elements, strip all
remaining tags, then trim surrounding whitespace. -/
def sanitizeText (s : String) : String :=
  let cs1 := stripScriptsGo (s.data.length + 1) s.data
  let cs2 := stripTagsGo (cs1.length + 1) cs1
  String.mk (trimChars cs2)

/-- server/middleware/validation.js sanitizeString: trim first, strip script
elements, strip tags, then truncate to maxLength characters
(String.prototype.substring counts UTF-16 units; the embedding counts
characters, which coincides on the inputs considered here). -/
def sanitizeString (maxLength : Nat) (s : String) : String :=
  let t := trimChars s.data
  let cs1 := stripScriptsGo (t.length + 1) t
  let cs2 := stripTagsGo (cs1.length + 1) cs1
  String.mk (cs2.take maxLength)

/-! ## Numeric validation helpers

sanitize.number (frontend) and sanitizeNumber (server) share the same logic:
parse, then REJECT (throw) when outside the caller-supplied [min, max]; the
defaults -Infinity / Infinity are modeled by Option bounds.  Typed ℚ input
makes the isNaN branch unreachable. -/

/-- sanitize.number / sanitizeNumber: fail with a range error when the value
lies outside the requested bounds, otherwise return it unchanged.  Note that
this validator rejects out-of-range input; it never clamps. -/
def sanitizeNumber (x : ℚ) (lo hi : Option ℚ) : Except String ℚ :=
  if (match lo with | some m => decide (x < m) | none => false)
      || (match hi with | some m => decide (m < x) | none => false) then
    .error "Number out of range"
  else
    .ok x

/-- JS Math.round semantics on rationals: floor (x + 1/2). -/
def jsRound (x : ℚ) : ℤ := (x + 1 / 2).floor

/-- JS Math.ceil on rationals: minus the floor of the negation. -/
def jsCeil (x : ℚ) : ℤ := -(-x).floor

/-- Math.round (x * 100) / 100, the 2-decimal rounding used throughout. -/
def roundCents (x : ℚ) : ℚ := (jsRound (x * 100) : ℚ) / 100

/-- Clamping to an interval, the operation the SPEC's wording attributes to
the percentage/shipping arguments.  Used only to state spec-side formulas,
for comparison with the code (which rejects instead of clamping). -/
def clampQ (lo hi x : ℚ) : ℚ := max lo (min hi x)

/-- Decidable equality on Except, for stating concrete evaluations. -/
instance {ε α : Type} [DecidableEq ε] [DecidableEq α] : DecidableEq (Except ε α) := fun a b =>
  match a, b with
  | .ok x, .ok y =>
    if h : x = y then .isTrue (by rw [h]) else .isFalse (by intro hc; cases hc; exact h rfl)
  | .error x, .error y =>
    if h : x = y then .isTrue (by rw [h]) else .isFalse (by intro hc; cases hc; exact h rfl)
  | .ok _, .error _ => .isFalse (by intro hc; cases hc)
  | .error _, .ok _ => .isFalse (by intro hc; cases hc)

/-! ## JSON-like values

Untyped JS values flowing through variant/metadata payloads: strings,
numbers, booleans, null, arrays and plain objects.  Objects are ordered
key/value sequences (JS objects preserve insertion order); mutual inductives
keep every recursion structural. -/

mutual

inductive JSValue where
  | null
  | str (s : String)
  | num (q : ℚ)
  | bool (b : Bool)
  | arr (elems : JSList)
  | obj (entries : JSEntries)

inductive JSList where
  | nil
  | cons (head : JSValue) (tail : JSList)

inductive JSEntries where
  | nil
  | cons (key : String) (val : JSValue) (tail : JSEntries)

end

mutual

/-- Structural equality of JS values.  It stands for the JSON.stringify
comparison the cart core performs on variants: on the value universe
produced by the sanitizers, stringify equality coincides with structural
equality (no number-formatting collisions arise here). -/
def jvalBeq : JSValue → JSValue → Bool
  | .null, .null => true
  | .str a, .str b => a == b
  | .num a, .num b => a == b
  | .bool a, .bool b => a == b
  | .arr a, .arr b => jlistBeq a b
  | .obj a, .obj b => jentriesBeq a b
  | _, _ => false

def jlistBeq : JSList → JSList → Bool
  | .nil, .nil => true
  | .cons a as, .cons b bs => jvalBeq a b && jlistBeq as bs
  | _, _ => false

def jentriesBeq : JSEntries → JSEntries → Bool
  | .nil, .nil => true
  | .cons k a as, .cons k2 b bs => k == k2 && jvalBeq a b && jentriesBeq as bs
  | _, _ => false

end

/-- JSON.stringify comparison lifted to a nullable variant slot
(JSON.stringify null is "null", distinct from every object rendering). -/
def jvalOptBeq : Option JSValue → Option JSValue → Bool
  | none, none => true
  | some a, some b => jvalBeq a b
  | _, _ => false

/-- JS truthiness on the modeled value universe. -/
def jsFalsy : JSValue → Bool
  | .null => true
  | .str s => s == ""
  | .num q => q == 0
  | .bool b => !b
  | _ => false

/-! ## Object sanitizers

Two distinct object sanitizers exist in the repository:

frontend sanitize.object (security/sanitizer.js): NOT recursive and with NO
depth bound — it sanitizes keys and top-level string values only, passes
every non-string value (including nested objects) through unchanged, and
normalizes non-object input to an empty object.  A JS array is an object to
typeof, so an array input is turned into an object keyed by its stringified
indices (Object.entries semantics).

server sanitizeObject (server/middleware/validation.js): recursive, rejects
nesting at relative depth greater than 5, returns primitives (and null)
unchanged, maps arrays, and recursively sanitizes object keys and values,
dropping entries whose sanitized key is empty (the value of a dropped key
is never visited). -/

/-- Key/value step of frontend sanitize.object on object entries: the key is
text-sanitized, a string value is text-sanitized, any other value passes
through unchanged; entries whose cleaned key is empty are dropped.  When the
same cleaned key arises twice, JS would overwrite; the claims considered
never produce duplicate cleaned keys. -/
def sanitizeEntriesFE : JSEntries → JSEntries
  | .nil => .nil
  | .cons k v rest =>
    let cleanKey := sanitizeText k
    let cleanValue := match v with
      | .str s => JSValue.str (sanitizeText s)
      | w => w
    if cleanKey == "" then sanitizeEntriesFE rest
    else .cons cleanKey cleanValue (sanitizeEntriesFE rest)

/-- Object.entries of an array: index keys "0", "1", ..., then the same
key/value step as for object entries. -/
def sanitizeArrEntriesFE (i : Nat) : JSList → JSEntries
  | .nil => .nil
  | .cons v rest =>
    let cleanKey := sanitizeText (toString i)
    let cleanValue := match v with
      | .str s => JSValue.str (sanitizeText s)
      | w => w
    if cleanKey == "" then sanitizeArrEntriesFE (i + 1) rest
    else .cons cleanKey cleanValue (sanitizeArrEntriesFE (i + 1) rest)

/-- frontend sanitize.object: non-objects (null, strings, numbers,
booleans) normalize to an empty object; arrays and objects have their
entries cleaned one level deep. -/
def sanitizeObjectFE : JSValue → JSValue
  | .arr elems => .obj (sanitizeArrEntriesFE 0 elems)
  | .obj es => .obj (sanitizeEntriesFE es)
  | _ => .obj .nil

mutual

/-- server sanitizeObject, fueled.  The fuel strictly exceeds the greatest
reachable recursion depth (the depth guard fires at relative depth 6, and
the top-level entry point below supplies fuel 8), so the fuel-exhaustion
branch is unreachable and the function agrees with the JS recursion. -/
def sanitizeObjectSrvGo : Nat → JSValue → Nat → Except String JSValue
  | 0, _, _ => .error "Object nesting too deep"
  | fuel + 1, v, depth =>
    if 5 < depth then .error "Object nesting too deep"
    else match v with
      | .null => .ok .null
      | .str s => .ok (.str (sanitizeString 200 s))
      | .num q => .ok (.num q)
      | .bool b => .ok (.bool b)
      | .arr elems => (sanitizeListSrvGo fuel elems depth).map .arr
      | .obj es => (sanitizeEntriesSrvGo fuel es depth).map .obj
  termination_by fuel v depth => (fuel, sizeOf v)

/-- Array elements are each sanitized one level deeper. -/
def sanitizeListSrvGo : Nat → JSList → Nat → Except String JSList
  | _, .nil, _ => .ok .nil
  | fuel, .cons v rest, depth => do
    let w ← sanitizeObjectSrvGo fuel v (depth + 1)
    let ws ← sanitizeListSrvGo fuel rest depth
    pure (.cons w ws)
  termination_by fuel elems depth => (fuel, sizeOf elems)

/-- Object entries: sanitize the key to at most 50 characters; if the
cleaned key is empty the entry is dropped and its value never visited,
otherwise the value is sanitized one level deeper. -/
def sanitizeEntriesSrvGo : Nat → JSEntries → Nat → Except String JSEntries
  | _, .nil, _ => .ok .nil
  | fuel, .cons k v rest, depth =>
    let cleanKey := sanitizeString 50 k
    if cleanKey == "" then sanitizeEntriesSrvGo fuel rest depth
    else do
      let w ← sanitizeObjectSrvGo fuel v (depth + 1)
      let ws ← sanitizeEntriesSrvGo fuel rest depth
      pure (.cons cleanKey w ws)
  termination_by fuel es depth => (fuel, sizeOf es)

end

/-- server sanitizeObject as called by its clients (depth defaults to 0). -/
def sanitizeObjectSrv (v : JSValue) : Except String JSValue :=
  sanitizeObjectSrvGo 8 v 0

/-! ## URL validation

sanitize.url delegates to the WHATWG URL parser (a platform primitive, not
repository code): it accepts only http/https schemes and returns null on any
parse failure.  Modeled platform primitive: the scheme is the leading run of
a letter followed by alphanumerics, plus, minus or dot, before a colon; href
normalization is not modeled since no claim inspects the returned image
string. -/

/-- Extract the URL scheme: accumulate scheme characters up to a colon. -/
def urlSchemeGo : List Char → List Char → Option String
  | _, [] => none
  | acc, c :: rest =>
    if c == ':' then some (String.mk acc.reverse)
    else if c.isAlphanum || c == '+' || c == '-' || c == '.' then
      urlSchemeGo (c :: acc) rest
    else none

/-- The scheme of a URL string, if it parses: a letter followed by
alphanumerics or +, -, . up to a colon. -/
def urlScheme (s : String) : Option String :=
  match s.data with
  | [] => none
  | c :: _ => if c.isAlpha then urlSchemeGo [] s.data else none

/-- sanitize.url: empty (falsy) input and unparsable strings yield null;
only http/https schemes are accepted; failures yield null, never an error. -/
def sanitizeUrl (s : String) : Option String :=
  if s == "" then none
  else match urlScheme s with
    | some sch => if sch.toLower == "http" || sch.toLower == "https" then some s else none
    | none => none

/-! ## Cart item validation (frontend validators) -/

/-- A cart item as the frontend cart core reads it: the typed view of the
fields the code accesses.  JS numbers are rationals. -/
structure CartItem where
  id : ℚ
  name : String
  price : ℚ
  quantity : ℚ
  image : Option String
  variant : Option JSValue

/-- validators.productId: a number in [1, Number.MAX_SAFE_INTEGER]. -/
def validProductId (x : ℚ) : Except String ℚ :=
  sanitizeNumber x (some 1) (some 9007199254740991)

/-- validators.productName: sanitized text of 1 to 200 characters. -/
def validProductName (name : String) : Except String String :=
  let cleaned := sanitizeText name
  if cleaned.length < 1 then .error "Product name is required"
  else if 200 < cleaned.length then .error "Product name too long (max 200 characters)"
  else .ok cleaned

/-- validators.price: a number in [0, 10000000], rounded to 2 decimals. -/
def validPrice (p : ℚ) : Except String ℚ :=
  (sanitizeNumber p (some 0) (some 10000000)).map roundCents

/-- validators.quantity: a number in [1, 999]. -/
def validQuantity (q : ℚ) : Except String ℚ :=
  sanitizeNumber q (some 1) (some 999)

/-- validators.image: absent/falsy input gives null, otherwise sanitize.url. -/
def validImage : Option String → Option String
  | none => none
  | some u => if u == "" then none else sanitizeUrl u

/-- validators.variant: absent/falsy input gives null, otherwise
sanitize.object. -/
def validVariant : Option JSValue → Option JSValue
  | none => none
  | some w => if jsFalsy w then none else some (sanitizeObjectFE w)

/-- validators.cartItem: each field validator in the evaluation order of the
object literal (id, name, price, quantity, image, variant); the first
failure rejects the whole item.  A falsy (zero) quantity defaults to 1. -/
def cartItemValidate (item : CartItem) : Except String CartItem := do
  let vid ← validProductId item.id
  let vname ← validProductName item.name
  let vprice ← validPrice item.price
  let vq ← validQuantity (if item.quantity == 0 then 1 else item.quantity)
  pure ⟨vid, vname, vprice, vq, validImage item.image, validVariant item.variant⟩

/-! ## Cart core (src/core/cartCore.secure.js) -/

/-- The CartError thrown by the cart core: user message plus machine code. -/
structure CartError where
  message : String
  code : String
deriving DecidableEq

/-- MAX_CART_SIZE: at most 50 distinct item entries. -/
def MAX_CART_SIZE : Nat := 50

/-- The cart core's identity test between a stored entry and a validated
candidate: same id and JSON.stringify-equal variant. -/
def itemKeyEq (item cand : CartItem) : Bool :=
  item.id == cand.id && jvalOptBeq item.variant cand.variant

/-- cartCore.addItem: validate the candidate; count the entries NOT matching
its key (a Nat models the JS numeric count); fail CART_FULL when that count
reaches MAX_CART_SIZE; merge into the first matching entry, re-validating
the summed quantity (fail QUANTITY_LIMIT when out of 1..999); otherwise
append the validated candidate.  Validation failures surface as ADD_FAILED. -/
def addItem (cart : List CartItem) (product : CartItem) : Except CartError (List CartItem) :=
  match cartItemValidate product with
  | .error _ => .error ⟨"Failed to add item to cart", "ADD_FAILED"⟩
  | .ok validProduct =>
    let currentSize := cart.foldl
      (fun sum item => sum + (if itemKeyEq item validProduct then 0 else 1)) 0
    if MAX_CART_SIZE ≤ currentSize then
      .error ⟨"Cannot add more items. Cart limit is 50 items.", "CART_FULL"⟩
    else
      match cart.findIdx? (fun item => itemKeyEq item validProduct) with
      | some i =>
        let existing := (cart.get? i).getD validProduct
        match validQuantity (existing.quantity + validProduct.quantity) with
        | .ok q => .ok (cart.set i { existing with quantity := q })
        | .error _ => .error ⟨"Maximum quantity is 999 per item", "QUANTITY_LIMIT"⟩
      | none => .ok (cart ++ [validProduct])

/-- cartCore.calculateSubtotal: sum price × quantity with each price and
quantity re-validated; any validation failure makes the whole subtotal 0;
otherwise the sum is rounded to cents. -/
def calculateSubtotal (cart : List CartItem) : ℚ :=
  match cart.foldlM
      (fun sum item => do
        let price ← validPrice item.price
        let q ← validQuantity item.quantity
        pure (sum + price * q))
      (0 : ℚ) with
  | .ok s => roundCents s
  | .error _ => 0

/-- cartCore.calculateTotal: subtotal, then discount, tax and shipping each
pass through sanitize.number with bounds [0,100], [0,100], [0,1000]; a
bounds violation is caught and the function returns 0.  In the successful
case the chain is subtotal → discountAmount → taxAmount → + shipping,
rounded to cents. -/
def calculateTotal (cart : List CartItem) (discount tax shipping : ℚ) : ℚ :=
  let subtotal := calculateSubtotal cart
  match (do
    let dv ← sanitizeNumber discount (some 0) (some 100)
    let tv ← sanitizeNumber tax (some 0) (some 100)
    let sv ← sanitizeNumber shipping (some 0) (some 1000)
    let discountAmount := subtotal * (dv / 100)
    let taxAmount := (subtotal - discountAmount) * (tv / 100)
    pure (roundCents (subtotal - discountAmount + taxAmount + sv)) :
      Except String ℚ) with
  | .ok t => t
  | .error _ => 0

/-- cartCore.applyDiscount: amount validated as nonnegative, percentage as
0..100; on success amount × (1 − pct/100); a validation failure is caught
and the ORIGINAL amount is returned unchanged. -/
def applyDiscount (amount pct : ℚ) : ℚ :=
  match (do
    let va ← sanitizeNumber amount (some 0) none
    let vd ← sanitizeNumber pct (some 0) (some 100)
    pure (va * (1 - vd / 100)) : Except String ℚ) with
  | .ok r => r
  | .error _ => amount

/-- Spec-side formula for calculateTotal, written from the specification's
words for comparison with the code: each percentage CLAMPED to [0,100], the
shipping fee CLAMPED to [0,1000], then the subtotal → discount → taxable →
tax → total chain, rounded to 2 decimals. -/
def specCalculateTotal (cart : List CartItem) (d t s : ℚ) : ℚ :=
  let subtotal := calculateSubtotal cart
  let dc := clampQ 0 100 d
  let tc := clampQ 0 100 t
  let sc := clampQ 0 1000 s
  let discountAmount := subtotal * (dc / 100)
  let taxable := subtotal - discountAmount
  let tax := taxable * (tc / 100)
  roundCents (taxable + tax + sc)

/-- Spec-side formula for applyDiscount, written from the specification's
words: amount × (1 − clamp(pct,0,100)/100). -/
def specApplyDiscount (amount pct : ℚ) : ℚ :=
  amount * (1 - clampQ 0 100 pct / 100)

/-! ## Keyed in-memory stores

The JS stores are Maps / plain objects keyed by strings.  Association lists
with keyed get/set model them; the representation order after a set differs
from the Map's insertion order, but every lookup agrees, and no claim
observes iteration order of a store. -/

/-- Keyed lookup (Map.get / property read). -/
def alLookup {α : Type} (k : String) : List (String × α) → Option α
  | [] => none
  | (k2, v) :: rest => if k2 == k then some v else alLookup k rest

/-- Keyed update (Map.set / property write): replace any binding of k. -/
def alSet {α : Type} (k : String) (v : α) (l : List (String × α)) : List (String × α) :=
  (k, v) :: l.filter (fun e => !(e.1 == k))

/-! ## Rate limiter (sanitizer.js RateLimiter)

Per action key an ordered list of request timestamps.  Timestamps and the
window are JS integer milliseconds, modeled as Int. -/

/-- The error thrown by canMakeRequest, carrying the whole-seconds wait
hint of its message. -/
inductive RLError where
  | tooManyRequests (waitSeconds : Int)
deriving DecidableEq

/-- Rate limiter state: configured maximum (a count, modeled as Nat),
window in milliseconds, and the per-key timestamp history object. -/
structure RateLimiter where
  maxRequests : Nat
  timeWindowMs : Int
  requests : List (String × List Int)

/-- RateLimiter.canMakeRequest: under the key action ++ "_requests", drop
timestamps outside the window (this pruning is stored even when the call
then fails), fail with the ceil((windowMs − (now − oldest))/1000) wait hint
when the remaining count has reached the maximum, otherwise append the
current time and succeed. -/
def canMakeRequest (rl : RateLimiter) (action : String) (now : Int) :
    Except RLError Bool × RateLimiter :=
  let key := action ++ "_requests"
  let hist := (alLookup key rl.requests).getD []
  let filtered := hist.filter (fun t => now - t < rl.timeWindowMs)
  if rl.maxRequests ≤ filtered.length then
    let oldest := filtered.headD 0
    let wait := jsCeil (((rl.timeWindowMs - (now - oldest) : Int) : ℚ) / 1000)
    (.error (.tooManyRequests wait), { rl with requests := alSet key filtered rl.requests })
  else
    (.ok true, { rl with requests := alSet key (filtered ++ [now]) rl.requests })

/-! ## Backend checkout (backend resolvers + mock database layer)

The resolver reads item.subtotal on the raw cart items stored by the
database layer.  db.carts.addItem creates items with fields id, productId,
quantity, variant, price, addedAt and NO subtotal field, so that property
read yields undefined, and JS arithmetic on undefined yields NaN.  JNum
models a JS number extended with NaN: NaN is absorbing for addition and
multiplication, and every NaN comparison is false. -/

/-- A JS number that may be NaN. -/
inductive JNum where
  | nan
  | num (q : ℚ)
deriving DecidableEq

/-- JS addition with NaN absorption. -/
def jadd : JNum → JNum → JNum
  | .num a, .num b => .num (a + b)
  | _, _ => .nan

/-- JS subtraction with NaN absorption. -/
def jsub : JNum → JNum → JNum
  | .num a, .num b => .num (a - b)
  | _, _ => .nan

/-- JS multiplication by a rational constant, with NaN absorption. -/
def jmulQ : JNum → ℚ → JNum
  | .num a, c => .num (a * c)
  | .nan, _ => .nan

/-- JS >= against a rational constant: false whenever the left side is NaN. -/
def jge : JNum → ℚ → Bool
  | .num a, c => c ≤ a
  | .nan, _ => false

/-- Reading a possibly absent numeric property in an arithmetic context:
an absent property is undefined, which converts to NaN. -/
def jnumOfProp : Option ℚ → JNum
  | none => .nan
  | some q => .num q

/-- A product row of the catalog store.  Timestamps other than updatedAt
are never observed by the claims and are omitted. -/
structure Product where
  name : String
  price : ℚ
  stock : Int
  updatedAt : String
deriving DecidableEq

/-- A cart item row as created by db.carts.addItem.  The subtotal field is
an Option: the database layer always leaves it absent (none); the backend
unit tests construct items carrying it (some). -/
structure DBCartItem where
  id : String
  productId : String
  quantity : Int
  variant : Option JSValue
  price : ℚ
  addedAt : String
  subtotal : Option ℚ

/-- A cart row of the cart store. -/
structure Cart where
  id : String
  userId : String
  items : List DBCartItem
  discount : ℚ
  updatedAt : String

/-- An order row as created by db.orders.create from checkout's figures. -/
structure Order where
  userId : String
  items : List DBCartItem
  subtotal : JNum
  tax : JNum
  shipping : ℚ
  total : JNum
  shippingAddress : String
  paymentMethod : String
  status : String
  createdAt : String

/-- The in-memory stores reached by checkout: products keyed by id, carts
keyed by id, orders keyed by id. -/
structure DBState where
  products : List (String × Product)
  carts : List (String × Cart)
  orders : List (String × Order)

/-- Checkout failure modes.  typeErrorNullProduct models the TypeError JS
raises when the stock check dereferences .stock of a null product lookup;
insufficientStock carries the offending product's name, as the resolver's
message interpolates it. -/
inductive ChkError where
  | noItemsSelected
  | cartNotFound
  | itemsNotFound
  | insufficientStock (productName : String)
  | typeErrorNullProduct
deriving DecidableEq

/-- The CheckoutResult payload returned on success. -/
structure ChkResult where
  success : Bool
  orderId : String
  total : JNum
  message : String
deriving DecidableEq

/-- The resolver's stock-check loop: for each selected item in order, look
up its product (a missing product makes JS throw a TypeError) and abort
with InsufficientStock at the first product whose stock is below the item's
quantity. -/
def stockCheck (products : List (String × Product)) : List DBCartItem → Except ChkError Unit
  | [] => .ok ()
  | item :: rest =>
    match alLookup item.productId products with
    | none => .error .typeErrorNullProduct
    | some product =>
      if product.stock < item.quantity then .error (.insufficientStock product.name)
      else stockCheck products rest

/-- db.products.decreaseStock: subtract the quantity from the product's
stock (no lower bound), refresh updatedAt; a missing id changes nothing. -/
def decreaseStock (id : String) (quantity : Int) (now : String)
    (products : List (String × Product)) : List (String × Product) :=
  match alLookup id products with
  | none => products
  | some p => alSet id { p with stock := p.stock - quantity, updatedAt := now } products

/-- The stock-decrement loop of checkout step 5: decreaseStock for each
selected item in order. -/
def decreaseAll (sel : List DBCartItem) (now : String)
    (products : List (String × Product)) : List (String × Product) :=
  match sel with
  | [] => products
  | item :: rest => decreaseAll rest now (decreaseStock item.productId item.quantity now products)

/-- sanitizeInput of the resolver file: trim and strip tags (the resolver's
local helper, applied to the address and payment-method strings). -/
def resolverSanitize (s : String) : String :=
  let t := trimChars s.data
  String.mk (stripTagsGo (t.length + 1) t)

/-- Mutation.checkout over the database state.  The caller identity is the
already-resolved userId (authentication is out of scope); freshId stands
for the uuid given to the created order and now for the current timestamp
string.  Returns the GraphQL result or error, and the post-call state. -/
def checkout (st : DBState) (userId : String) (cartItemIds : List String)
    (shippingAddress paymentMethod freshId now : String) :
    Except ChkError ChkResult × DBState :=
  if cartItemIds.isEmpty then (.error .noItemsSelected, st)
  else
    match (st.carts.map Prod.snd).find? (fun c => c.userId == userId) with
    | none => (.error .cartNotFound, st)
    | some cart =>
      let selectedItems := cart.items.filter (fun item => cartItemIds.contains item.id)
      if selectedItems.isEmpty then (.error .itemsNotFound, st)
      else
        match stockCheck st.products selectedItems with
        | .error e => (.error e, st)
        | .ok _ =>
          let subtotal := selectedItems.foldl (fun sum item => jadd sum (jnumOfProp item.subtotal))
            (JNum.num 0)
          let tax := jmulQ subtotal (1 / 10)
          let shipping : ℚ := if jge subtotal 100 then 0 else 10
          let total := jadd (jadd subtotal tax) (JNum.num shipping)
          let order : Order :=
            { userId := userId
              items := selectedItems
              subtotal := subtotal
              tax := tax
              shipping := shipping
              total := total
              shippingAddress := resolverSanitize shippingAddress
              paymentMethod := resolverSanitize paymentMethod
              status := "pending"
              createdAt := now }
          let products2 := decreaseAll selectedItems now st.products
          let cart2 : Cart :=
            { cart with
              items := cart.items.filter (fun item => !cartItemIds.contains item.id)
              updatedAt := now }
          (.ok { success := true, orderId := freshId, total := total
                 message := "Order placed successfully" },
            { products := products2
              carts := alSet cart.id cart2 st.carts
              orders := alSet freshId order st.orders })

/-! ## Cart field resolvers (Cart.total of the GraphQL schema) -/

/-- Cart.total: subtotal as the sum of each item's subtotal property,
discountAmount subtracted before tax when the cart's discount is truthy,
10% tax on the discounted amount, shipping 0 from subtotal 100, flat 10
below. -/
def cartTotalResolve (cart : Cart) : JNum :=
  let subtotal := cart.items.foldl (fun sum item => jadd sum (jnumOfProp item.subtotal))
    (JNum.num 0)
  let discountAmount := if cart.discount == 0 then JNum.num 0
    else jmulQ subtotal (cart.discount / 100)
  let afterDiscount := jsub subtotal discountAmount
  let tax := jmulQ afterDiscount (1 / 10)
  let shipping : ℚ := if jge subtotal 100 then 0 else 10
  jadd (jadd afterDiscount tax) (JNum.num shipping)

/-! ## Spec-side checkout figures

Written from the specification's words, for comparison with the resolver:
subtotal = Σ price × quantity over the SELECTED items, tax = 10% of the
subtotal, shipping by the free-shipping policy, total = subtotal + tax +
shipping. -/

/-- Spec-side subtotal over the selected items. -/
def specCheckoutSubtotal (sel : List DBCartItem) : ℚ :=
  sel.foldl (fun sum item => sum + item.price * item.quantity) 0

/-- Spec-side total = subtotal + 10% tax + free-shipping-policy fee. -/
def specCheckoutTotal (sel : List DBCartItem) : ℚ :=
  let subtotal := specCheckoutSubtotal sel
  let tax := subtotal * (1 / 10)
  let shipping : ℚ := if 100 ≤ subtotal then 0 else 10
  subtotal + tax + shipping

/-! ## Helper lemmas -/

theorem ratFloor_eq_floor (x : ℚ) : x.floor = ⌊x⌋ := rfl

theorem jsRound_eq (x : ℚ) : jsRound x = ⌊x + 1 / 2⌋ := rfl

theorem jsCeil_eq (x : ℚ) : jsCeil x = ⌈x⌉ := by
  rw [jsCeil, ratFloor_eq_floor, Int.floor_neg, neg_neg]

theorem roundCents_int (n : ℤ) : roundCents (n : ℚ) = n := by
  rw [roundCents, jsRound_eq]
  have h : ((n : ℚ) * 100 + 1 / 2) = ((n * 100 : ℤ) : ℚ) + (1 / 2 : ℚ) := by
    push_cast; ring
  rw [h, Int.floor_int_add]
  norm_num

theorem sanitizeNumber_ok2 (x a b : ℚ) (h1 : a ≤ x) (h2 : x ≤ b) :
    sanitizeNumber x (some a) (some b) = .ok x := by
  simp only [sanitizeNumber]
  simp [not_lt.mpr h1, not_lt.mpr h2]

theorem sanitizeNumber_ok_lo (x a : ℚ) (h1 : a ≤ x) :
    sanitizeNumber x (some a) none = .ok x := by
  simp only [sanitizeNumber]
  simp [not_lt.mpr h1]

theorem sanitizeNumber_err_lo (x a : ℚ) (hi : Option ℚ) (h : x < a) :
    sanitizeNumber x (some a) hi = .error "Number out of range" := by
  simp only [sanitizeNumber]
  simp [h]

theorem sanitizeNumber_err_hi (x b : ℚ) (lo : Option ℚ) (h : b < x) :
    sanitizeNumber x lo (some b) = .error "Number out of range" := by
  simp only [sanitizeNumber]
  simp [h]

theorem clampQ_of_mem (lo hi x : ℚ) (h1 : lo ≤ x) (h2 : x ≤ hi) : clampQ lo hi x = x := by
  rw [clampQ, min_eq_right h2, max_eq_right h1]

end CartEngine

namespace CartEngine

/-! ## Claim C6: applyDiscount -/

/-- A concrete valid single cart item used by several concrete evaluations:
id 1, name "P", price 100, quantity 1. -/
def wItem100 : CartItem := ⟨1, "P", 100, 1, none, none⟩

/-- Claim C6, counterexample to the claim as stated: the claim asserts
applyDiscount(amount, pct) = amount × (1 − clamp(pct,0,100)/100) for every
percentage including out-of-range ones, and simultaneously that
applyDiscount(100, 150) = 100.  The clamping formula at (100, 150) yields
100 × (1 − 100/100) = 0, but the code returns the original amount 100: the
out-of-range percentage is REJECTED by sanitize.number and the catch block
returns the amount unchanged, so the claimed clamping formula is wrong. -/
theorem claim_C6_counterexample :
    applyDiscount 100 150 = 100 ∧ specApplyDiscount 100 150 = 0 ∧ (100 : ℚ) ≠ 0 := by
  refine ⟨?_, ?_, by norm_num⟩
  · rw [applyDiscount]
    rw [sanitizeNumber_ok_lo 100 0 (by norm_num), sanitizeNumber_err_hi 150 100 (some 0) (by norm_num)]
    rfl
  · rw [specApplyDiscount, clampQ]
    norm_num

/-- Claim C6, amended: for a nonnegative amount and an IN-RANGE percentage,
applyDiscount(amount, pct) = amount × (1 − pct/100); an out-of-range
percentage is rejected by the validator and the original amount is returned
unchanged (it is not clamped); in particular applyDiscount(100, 150) = 100
and applyDiscount(100, 20) = 80. -/
theorem claim_C6 :
    (∀ a p : ℚ, 0 ≤ a → 0 ≤ p → p ≤ 100 → applyDiscount a p = a * (1 - p / 100)) ∧
    (∀ a p : ℚ, p < 0 ∨ 100 < p → applyDiscount a p = a) ∧
    applyDiscount 100 150 = 100 ∧ applyDiscount 100 20 = 80 := by
  refine ⟨?_, ?_, ?_, ?_⟩
  · intro a p ha hp hp2
    rw [applyDiscount, sanitizeNumber_ok_lo a 0 ha, sanitizeNumber_ok2 p 0 100 hp hp2]
    rfl
  · intro a p hp
    rw [applyDiscount]
    by_cases ha : a < 0
    · rw [sanitizeNumber_err_lo a 0 none ha]
      rfl
    · rw [sanitizeNumber_ok_lo a 0 (not_lt.mp ha)]
      rcases hp with h | h
      · rw [sanitizeNumber_err_lo p 0 (some 100) h]
        rfl
      · rw [sanitizeNumber_err_hi p 100 (some 0) h]
        rfl
  · rw [applyDiscount, sanitizeNumber_ok_lo 100 0 (by norm_num),
      sanitizeNumber_err_hi 150 100 (some 0) (by norm_num)]
    rfl
  · rw [applyDiscount, sanitizeNumber_ok_lo 100 0 (by norm_num),
      sanitizeNumber_ok2 20 0 100 (by norm_num) (by norm_num)]
    show (100 : ℚ) * (1 - 20 / 100) = 80
    norm_num

/-- Witness for claim C6: the amended theorem applied at concrete inputs. -/
theorem claim_C6_witness : applyDiscount 200 50 = 100 ∧ applyDiscount 7 200 = 7 := by
  constructor
  · rw [claim_C6.1 200 50 (by norm_num) (by norm_num) (by norm_num)]
    norm_num
  · exact claim_C6.2.1 7 200 (Or.inr (by norm_num))

end CartEngine

namespace CartEngine

/-! ## Claim C5: calculateTotal -/

theorem roundCents_100 : roundCents 100 = 100 := by
  have h := roundCents_int 100
  norm_num at h
  exact h

/-- The subtotal of the one-item cart [wItem100] is 100. -/
theorem wItem100_subtotal : calculateSubtotal [wItem100] = 100 := by
  show roundCents (0 + roundCents 100 * 1) = 100
  rw [roundCents_100]
  have h : ((0:ℚ) + 100 * 1) = 100 := by norm_num
  rw [h, roundCents_100]

/-- Claim C5, counterexample to the claim as stated: the claim asserts the
discount/tax/shipping chain with CLAMPED arguments for ALL numeric
arguments, including out-of-range ones.  At taxPct = 150 the clamping chain
yields 200 over a 100-subtotal cart, but calculateTotal returns 0: the
out-of-range percentage is rejected by sanitize.number and the catch block
returns 0. -/
theorem claim_C5_counterexample :
    calculateTotal [wItem100] 0 150 0 = 0 ∧
    specCalculateTotal [wItem100] 0 150 0 = 200 ∧ (0 : ℚ) ≠ 200 := by
  refine ⟨?_, ?_, by norm_num⟩
  · rw [calculateTotal, sanitizeNumber_ok2 0 0 100 (by norm_num) (by norm_num),
      sanitizeNumber_err_hi 150 100 (some 0) (by norm_num)]
    rfl
  · rw [specCalculateTotal, wItem100_subtotal]
    rw [clampQ_of_mem 0 100 0 (by norm_num) (by norm_num),
      clampQ_of_mem 0 1000 0 (by norm_num) (by norm_num)]
    have hc : clampQ 0 100 150 = 100 := by rw [clampQ]; norm_num
    rw [hc]
    have : (100 : ℚ) - 100 * (100 / 100) + (100 - 100 * (100 / 100)) * (150 / 100) + 0 = 0 := by
      norm_num
    show roundCents (100 - 100 * (0 / 100) + (100 - 100 * (0 / 100)) * (100 / 100) + 0) = 200
    have h2 : (100 : ℚ) - 100 * (0 / 100) + (100 - 100 * (0 / 100)) * (100 / 100) + 0 = 200 := by
      norm_num
    rw [h2]
    have h := roundCents_int 200
    norm_num at h
    exact h

/-- Claim C5, amended: for arguments WITHIN their ranges (discount and tax
percentages in [0,100], shipping fee in [0,1000]) calculateTotal equals the
spec's subtotal → discount → taxable → tax → total chain rounded to 2
decimals (on which clamping is the identity); an out-of-range numeric
argument is rejected by sanitize.number and calculateTotal returns 0
instead of clamping. -/
theorem claim_C5 :
    (∀ (cart : List CartItem) (d t s : ℚ), 0 ≤ d → d ≤ 100 → 0 ≤ t → t ≤ 100 →
      0 ≤ s → s ≤ 1000 → calculateTotal cart d t s = specCalculateTotal cart d t s) ∧
    (∀ (cart : List CartItem) (d t s : ℚ),
      (d < 0 ∨ 100 < d ∨ t < 0 ∨ 100 < t ∨ s < 0 ∨ 1000 < s) →
      calculateTotal cart d t s = 0) := by
  constructor
  · intro cart d t s hd hd2 ht ht2 hs hs2
    rw [calculateTotal, specCalculateTotal,
      sanitizeNumber_ok2 d 0 100 hd hd2, sanitizeNumber_ok2 t 0 100 ht ht2,
      sanitizeNumber_ok2 s 0 1000 hs hs2,
      clampQ_of_mem 0 100 d hd hd2, clampQ_of_mem 0 100 t ht ht2,
      clampQ_of_mem 0 1000 s hs hs2]
    rfl
  · intro cart d t s h
    rw [calculateTotal]
    by_cases hd1 : d < 0
    · rw [sanitizeNumber_err_lo d 0 (some 100) hd1]; rfl
    by_cases hd2 : 100 < d
    · rw [sanitizeNumber_err_hi d 100 (some 0) hd2]; rfl
    rw [sanitizeNumber_ok2 d 0 100 (not_lt.mp hd1) (not_lt.mp hd2)]
    by_cases ht1 : t < 0
    · rw [sanitizeNumber_err_lo t 0 (some 100) ht1]; rfl
    by_cases ht2 : 100 < t
    · rw [sanitizeNumber_err_hi t 100 (some 0) ht2]; rfl
    rw [sanitizeNumber_ok2 t 0 100 (not_lt.mp ht1) (not_lt.mp ht2)]
    rcases h with h | h | h | h | h | h
    · exact absurd h hd1
    · exact absurd h hd2
    · exact absurd h ht1
    · exact absurd h ht2
    · rw [sanitizeNumber_err_lo s 0 (some 1000) h]; rfl
    · rw [sanitizeNumber_err_hi s 1000 (some 0) h]; rfl

/-- Witness for claim C5: the spec's own test vector, a single item priced
100 at quantity 1 with a 10% discount, 10% tax and shipping fee 5, totals
exactly 104. -/
theorem claim_C5_witness : calculateTotal [wItem100] 10 10 5 = 104 := by
  rw [claim_C5.1 [wItem100] 10 10 5 (by norm_num) (by norm_num) (by norm_num) (by norm_num)
    (by norm_num) (by norm_num)]
  rw [specCalculateTotal, wItem100_subtotal,
    clampQ_of_mem 0 100 10 (by norm_num) (by norm_num),
    clampQ_of_mem 0 1000 5 (by norm_num) (by norm_num)]
  show roundCents (100 - 100 * (10 / 100) + (100 - 100 * (10 / 100)) * (10 / 100) + 5) = 104
  have h2 : (100 : ℚ) - 100 * (10 / 100) + (100 - 100 * (10 / 100)) * (10 / 100) + 5 = 104 := by
    norm_num
  rw [h2]
  have h := roundCents_int 104
  norm_num at h
  exact h

end CartEngine

namespace CartEngine

/-! ## Claim C3: addItem merge semantics -/

theorem except_bind_ok {ε α β : Type} (x : α) (f : α → Except ε β) :
    (Except.ok x >>= f : Except ε β) = f x := rfl

theorem except_bind_error {ε α β : Type} (e : ε) (f : α → Except ε β) :
    ((Except.error e : Except ε α) >>= f) = .error e := rfl

/-- Inversion of validQuantity: success returns the input, which lies in
[1, 999]. -/
theorem validQuantity_ok {x q : ℚ} (h : validQuantity x = .ok q) :
    q = x ∧ 1 ≤ q ∧ q ≤ 999 := by
  rw [validQuantity, sanitizeNumber] at h
  split at h
  · exact absurd h (by simp)
  · next hcond =>
    simp only [Bool.or_eq_true, decide_eq_true_eq, not_or] at hcond
    injection h with h
    subst h
    exact ⟨rfl, not_lt.mp hcond.1, not_lt.mp hcond.2⟩

/-- A validated cart item has quantity in [1, 999]. -/
theorem cartItemValidate_ok_quantity {item out : CartItem}
    (h : cartItemValidate item = .ok out) : 1 ≤ out.quantity ∧ out.quantity ≤ 999 := by
  rw [cartItemValidate] at h
  cases h1 : validProductId item.id with
  | error e => rw [h1, except_bind_error] at h; exact absurd h (by simp)
  | ok vid =>
    rw [h1, except_bind_ok] at h
    cases h2 : validProductName item.name with
    | error e => rw [h2, except_bind_error] at h; exact absurd h (by simp)
    | ok vname =>
      rw [h2, except_bind_ok] at h
      cases h3 : validPrice item.price with
      | error e => rw [h3, except_bind_error] at h; exact absurd h (by simp)
      | ok vprice =>
        rw [h3, except_bind_ok] at h
        cases h4 : validQuantity (if item.quantity == 0 then 1 else item.quantity) with
        | error e => rw [h4, except_bind_error] at h; exact absurd h (by simp)
        | ok vq =>
          rw [h4, except_bind_ok] at h
          obtain ⟨-, hq1, hq2⟩ := validQuantity_ok h4
          injection h with h
          rw [← h]
          exact ⟨hq1, hq2⟩

/-- The counting fold of addItem equals an offset plus the count of
non-matching entries. -/
theorem foldl_count_eq (p : CartItem → Bool) :
    ∀ (l : List CartItem) (n : Nat),
      l.foldl (fun sum it => sum + if p it then 0 else 1) n
        = n + l.countP (fun it => !p it) := by
  intro l
  induction l with
  | nil => intro n; simp
  | cons a l ih =>
    intro n
    rw [List.foldl_cons, ih, List.countP_cons]
    by_cases h : p a <;> simp [h] <;> omega

/-- Claim C3: for validated items A and B with equal (id, variant) key,
addItem([], A) = [A] and addItem([A], B) merges into a single entry whose
quantity is A.quantity + B.quantity when the sum stays at most 999; when
the merged quantity exceeds 999 addItem fails with QUANTITY_LIMIT; and a
validated candidate matching no existing entry of a non-full cart is
appended as a new entry. -/
theorem claim_C3 : ∀ A B : CartItem,
    cartItemValidate A = .ok A → cartItemValidate B = .ok B →
    itemKeyEq A B = true →
    (addItem [] A = .ok [A]) ∧
    (A.quantity + B.quantity ≤ 999 →
      addItem [A] B = .ok [{ A with quantity := A.quantity + B.quantity }]) ∧
    (999 < A.quantity + B.quantity →
      addItem [A] B = .error ⟨"Maximum quantity is 999 per item", "QUANTITY_LIMIT"⟩) ∧
    (∀ (cart : List CartItem) (C : CartItem), cartItemValidate C = .ok C →
      (∀ it ∈ cart, itemKeyEq it C = false) →
      cart.length < MAX_CART_SIZE →
      addItem cart C = .ok (cart ++ [C])) := by
  intro A B hA hB hkey
  obtain ⟨hA1, hA2⟩ := cartItemValidate_ok_quantity hA
  obtain ⟨hB1, hB2⟩ := cartItemValidate_ok_quantity hB
  refine ⟨?_, ?_, ?_, ?_⟩
  · rw [addItem, hA]
    rfl
  · intro hsum
    rw [addItem, hB]
    have hvq : validQuantity (A.quantity + B.quantity) = .ok (A.quantity + B.quantity) := by
      rw [validQuantity]
      exact sanitizeNumber_ok2 _ 1 999 (by linarith) hsum
    simp only [List.foldl_cons, List.foldl_nil, hkey, if_true, MAX_CART_SIZE]
    rw [if_neg (by omega)]
    rw [List.findIdx?_cons, hkey, if_pos rfl]
    simp only [List.get?_eq_getElem?, List.getElem?_cons_zero, Option.getD_some, hvq]
    rfl
  · intro hsum
    rw [addItem, hB]
    have hvq : validQuantity (A.quantity + B.quantity) = .error "Number out of range" := by
      rw [validQuantity]
      exact sanitizeNumber_err_hi _ 999 (some 1) hsum
    simp only [List.foldl_cons, List.foldl_nil, hkey, if_true, MAX_CART_SIZE]
    rw [if_neg (by omega)]
    rw [List.findIdx?_cons, hkey, if_pos rfl]
    simp only [List.get?_eq_getElem?, List.getElem?_cons_zero, Option.getD_some, hvq]
  · intro cart C hC hnone hlen
    rw [addItem, hC]
    dsimp only
    have hcount : cart.foldl
        (fun sum it => sum + if itemKeyEq it C then 0 else 1) 0 = cart.length := by
      rw [foldl_count_eq]
      have : cart.countP (fun it => !itemKeyEq it C) = cart.length :=
        List.countP_eq_length.mpr (by intro a ha; simp [hnone a ha])
      omega
    rw [hcount, if_neg (by omega)]
    rw [List.findIdx?_eq_none_iff.mpr hnone]

end CartEngine

namespace CartEngine

/-- Evaluation of cartItemValidate on a plain in-range item (no image, no
variant): validation succeeds and returns the item unchanged. -/
theorem cartItemValidate_plain (i p q : ℚ) (nm : String)
    (hi1 : 1 ≤ i) (hi2 : i ≤ 9007199254740991)
    (hnm : sanitizeText nm = nm) (hl1 : 1 ≤ nm.length) (hl2 : nm.length ≤ 200)
    (hp1 : 0 ≤ p) (hp2 : p ≤ 10000000) (hpr : roundCents p = p)
    (hq0 : (q == 0) = false) (hq1 : 1 ≤ q) (hq2 : q ≤ 999) :
    cartItemValidate ⟨i, nm, p, q, none, none⟩ = .ok ⟨i, nm, p, q, none, none⟩ := by
  rw [cartItemValidate]
  rw [validProductId, sanitizeNumber_ok2 i 1 9007199254740991 hi1 hi2, except_bind_ok]
  rw [validProductName]
  dsimp only
  rw [hnm, if_neg (by omega), if_neg (by omega), except_bind_ok]
  rw [validPrice, sanitizeNumber_ok2 p 0 10000000 hp1 hp2]
  show (Except.ok (roundCents p) >>= _) = _
  rw [hpr, except_bind_ok, hq0]
  show (validQuantity q >>= _) = _
  rw [validQuantity, sanitizeNumber_ok2 q 1 999 hq1 hq2, except_bind_ok]
  rfl

/-- The concrete items of the C3 witness: same (id, variant) key. -/
def wA3 : CartItem := ⟨1, "P", 2, 3, none, none⟩

def wB3 : CartItem := ⟨1, "P", 2, 4, none, none⟩

/-- Witness for claim C3: adding two valid items with the same (id,
variant) key to an empty cart yields one entry with the summed quantity. -/
theorem claim_C3_witness :
    addItem [] wA3 = .ok [wA3] ∧
    addItem [wA3] wB3 = .ok [{ wA3 with quantity := 7 }] := by
  have hr2 : roundCents 2 = 2 := by have h := roundCents_int 2; norm_num at h; exact h
  have hA : cartItemValidate wA3 = .ok wA3 :=
    cartItemValidate_plain 1 2 3 "P" (by norm_num) (by norm_num) (by decide) (by decide)
      (by decide) (by norm_num) (by norm_num) hr2 (by decide) (by norm_num) (by norm_num)
  have hB : cartItemValidate wB3 = .ok wB3 :=
    cartItemValidate_plain 1 2 4 "P" (by norm_num) (by norm_num) (by decide) (by decide)
      (by decide) (by norm_num) (by norm_num) hr2 (by decide) (by norm_num) (by norm_num)
  have hkey : itemKeyEq wA3 wB3 = true := by decide
  obtain ⟨h1, h2, -, -⟩ := claim_C3 wA3 wB3 hA hB hkey
  refine ⟨h1, ?_⟩
  have hq : wA3.quantity + wB3.quantity = 7 := by norm_num [wA3, wB3]
  have h2x := h2 (by rw [hq]; norm_num)
  rw [hq] at h2x
  exact h2x

end CartEngine

namespace CartEngine

/-! ## Claim C4: CartFull versus merge on a full cart -/

/-- findIdx? locates the first matching element after a run of
non-matching ones. -/
theorem findIdx?_append_match (p : CartItem → Bool) :
    ∀ (pre : List CartItem) (E : CartItem) (post : List CartItem),
      (∀ x ∈ pre, p x = false) → p E = true →
      List.findIdx? p (pre ++ E :: post) = some pre.length := by
  intro pre
  induction pre with
  | nil =>
    intro E post h hE
    rw [List.nil_append, List.findIdx?_cons, hE, if_pos rfl]
    rfl
  | cons a pre ih =>
    intro E post h hE
    rw [List.cons_append, List.findIdx?_cons]
    simp only [h a (List.mem_cons_self a pre), Bool.false_eq_true, if_false]
    rw [List.findIdx?_succ, ih E post (fun x hx => h x (List.mem_cons_of_mem a hx)) hE]
    simp

/-- Setting the element right after a prefix replaces the middle element. -/
theorem set_append_mid (pre : List CartItem) (E X : CartItem) (post : List CartItem) :
    (pre ++ E :: post).set pre.length X = pre ++ X :: post := by
  induction pre with
  | nil => rfl
  | cons a pre ih => simpa using ih

/-- Claim C4: into a cart of exactly 50 entries, a valid candidate matching
no existing (id, variant) key fails with CART_FULL; a valid candidate
matching an existing entry merges quantities, succeeding whenever the
merged quantity stays at most 999 (QUANTITY_LIMIT beyond). -/
theorem claim_C4 : ∀ (cart : List CartItem) (C : CartItem),
    cart.length = MAX_CART_SIZE →
    cartItemValidate C = .ok C →
    ((∀ it ∈ cart, itemKeyEq it C = false) →
      addItem cart C = .error ⟨"Cannot add more items. Cart limit is 50 items.", "CART_FULL"⟩) ∧
    (∀ (pre : List CartItem) (E : CartItem) (post : List CartItem),
      cart = pre ++ E :: post →
      (∀ x ∈ pre, itemKeyEq x C = false) →
      (∀ x ∈ post, itemKeyEq x C = false) →
      itemKeyEq E C = true →
      0 ≤ E.quantity →
      (E.quantity + C.quantity ≤ 999 →
        addItem cart C = .ok (pre ++ { E with quantity := E.quantity + C.quantity } :: post)) ∧
      (999 < E.quantity + C.quantity →
        addItem cart C = .error ⟨"Maximum quantity is 999 per item", "QUANTITY_LIMIT"⟩)) := by
  intro cart C hlen hC
  obtain ⟨hCq1, hCq2⟩ := cartItemValidate_ok_quantity hC
  constructor
  · intro hall
    rw [addItem, hC]
    dsimp only
    rw [foldl_count_eq]
    have hcnt : cart.countP (fun it => !itemKeyEq it C) = cart.length :=
      List.countP_eq_length.mpr (by intro a ha; simp [hall a ha])
    rw [hcnt, hlen, if_pos (by omega)]
  · intro pre E post hcart hpre hpost hE hEq
    subst hcart
    have hcnt : (pre ++ E :: post).countP (fun it => !itemKeyEq it C)
        = pre.length + post.length := by
      rw [List.countP_append, List.countP_cons]
      have h1 : pre.countP (fun it => !itemKeyEq it C) = pre.length :=
        List.countP_eq_length.mpr (by intro a ha; simp [hpre a ha])
      have h2 : post.countP (fun it => !itemKeyEq it C) = post.length :=
        List.countP_eq_length.mpr (by intro a ha; simp [hpost a ha])
      rw [h1, h2]
      simp [hE]
    have hlen2 : pre.length + post.length + 1 = MAX_CART_SIZE := by
      rw [← hlen]
      simp [List.length_append]
      omega
    have hget : ((pre ++ E :: post).get? pre.length).getD C = E := by
      rw [List.get?_eq_getElem?, List.getElem?_append_right (Nat.le_refl pre.length)]
      simp
    constructor
    · intro hsum
      rw [addItem, hC]
      dsimp only
      rw [foldl_count_eq, hcnt, if_neg (by omega)]
      rw [findIdx?_append_match _ pre E post hpre hE]
      dsimp only
      rw [hget]
      rw [validQuantity, sanitizeNumber_ok2 _ 1 999 (by linarith) hsum]
      dsimp only
      rw [set_append_mid]
    · intro hsum
      rw [addItem, hC]
      dsimp only
      rw [foldl_count_eq, hcnt, if_neg (by omega)]
      rw [findIdx?_append_match _ pre E post hpre hE]
      dsimp only
      rw [hget]
      rw [validQuantity, sanitizeNumber_err_hi _ 999 (some 1) hsum]

end CartEngine

namespace CartEngine

/-- The 49 further entries of the C4 witness cart: ids 2..50. -/
def wTailC4 : List CartItem := (List.range 49).map (fun n => ⟨(n + 2 : ℕ), "P", 1, 1, none, none⟩)

/-- Head entry of the C4 witness cart: id 1. -/
def wE4 : CartItem := ⟨1, "P", 1, 1, none, none⟩

/-- The C4 witness cart: 50 entries with pairwise distinct ids 1..50. -/
def wCartC4 : List CartItem := wE4 :: wTailC4

/-- A 51st distinct product. -/
def wNew4 : CartItem := ⟨51, "P", 1, 1, none, none⟩

/-- A candidate matching the existing id-1 entry, quantity 6. -/
def wDup4 : CartItem := ⟨1, "P", 1, 6, none, none⟩

/-- Witness for claim C4: on the 50-entry cart, a 51st distinct product is
refused with CART_FULL while 6 more units of the existing id-1 entry merge
to quantity 7. -/
theorem claim_C4_witness :
    addItem wCartC4 wNew4
      = .error ⟨"Cannot add more items. Cart limit is 50 items.", "CART_FULL"⟩ ∧
    addItem wCartC4 wDup4 = .ok ({ wE4 with quantity := 7 } :: wTailC4) := by
  have hr1 : roundCents 1 = 1 := by have h := roundCents_int 1; norm_num at h; exact h
  have hNew : cartItemValidate wNew4 = .ok wNew4 :=
    cartItemValidate_plain 51 1 1 "P" (by norm_num) (by norm_num) (by decide) (by decide)
      (by decide) (by norm_num) (by norm_num) hr1 (by decide) (by norm_num) (by norm_num)
  have hDup : cartItemValidate wDup4 = .ok wDup4 :=
    cartItemValidate_plain 1 1 6 "P" (by norm_num) (by norm_num) (by decide) (by decide)
      (by decide) (by norm_num) (by norm_num) hr1 (by decide) (by norm_num) (by norm_num)
  constructor
  · exact (claim_C4 wCartC4 wNew4 (by decide) hNew).1 (by decide)
  · have h := ((claim_C4 wCartC4 wDup4 (by decide) hDup).2 [] wE4 wTailC4 rfl
      (by intro x hx; simp at hx) (by decide) (by decide) (by norm_num [wE4])).1
      (by norm_num [wE4, wDup4])
    have hq : wE4.quantity + wDup4.quantity = 7 := by norm_num [wE4, wDup4]
    rw [hq] at h
    exact h

end CartEngine

namespace CartEngine

/-! ## Claim C7: rate limiter -/

theorem alLookup_alSet_eq {α : Type} (k : String) (v : α) (l : List (String × α)) :
    alLookup k (alSet k v l) = some v := by
  simp [alSet, alLookup]

theorem alLookup_filter_ne {α : Type} (key sk : String) (h : (sk == key) = false) :
    ∀ l : List (String × α),
      alLookup key (l.filter (fun e => !(e.1 == sk))) = alLookup key l := by
  intro l
  induction l with
  | nil => rfl
  | cons a rest ih =>
    rw [List.filter_cons]
    cases ha : (a.1 == sk) with
    | true =>
      have ha2 : (a.1 == key) = false := by
        have h3 : a.1 = sk := eq_of_beq ha
        rw [h3]
        exact h
      simp only [ha, Bool.not_true, Bool.false_eq_true, if_false]
      rw [ih, alLookup]
      simp [ha2]
    | false =>
      simp only [ha, Bool.not_false, if_true]
      rw [alLookup, alLookup]
      cases hk : (a.1 == key) with
      | true => simp [hk]
      | false => simp [hk, ih]

theorem alLookup_alSet_ne {α : Type} (key sk : String) (v : α) (l : List (String × α))
    (h : (sk == key) = false) : alLookup key (alSet sk v l) = alLookup key l := by
  rw [alSet, alLookup]
  simp only [h, if_false]
  exact alLookup_filter_ne key sk h l

/-- Appending the same suffix to distinct strings keeps them distinct. -/
theorem string_append_ne (a b s : String) (h : (a == b) = false) :
    ((a ++ s) == (b ++ s)) = false := by
  apply Bool.eq_false_iff.mpr
  intro hc
  have he : a ++ s = b ++ s := eq_of_beq hc
  have hd : a.data ++ s.data = b.data ++ s.data := by
    have h1 : (a ++ s).data = a.data ++ s.data := String.data_append a s
    have h2 : (b ++ s).data = b.data ++ s.data := String.data_append b s
    rw [← h1, ← h2, he]
  have hlen : a.data.length = b.data.length := by
    have h4 := congrArg List.length hd
    simp only [List.length_append] at h4
    omega
  have hab : a.data = b.data := (List.append_inj hd hlen).1
  have : a = b := by
    cases a; cases b
    simp_all
  rw [this] at h
  simp at h

/-- The stored timestamp history under an action key. -/
def rlHistory (rl : RateLimiter) (action : String) : List Int :=
  (alLookup (action ++ "_requests") rl.requests).getD []

/-- The timestamps of the window still alive at the current time. -/
def rlInWindow (rl : RateLimiter) (action : String) (now : Int) : List Int :=
  (rlHistory rl action).filter (fun t => now - t < rl.timeWindowMs)

/-- The wait hint of the TooManyRequests error: ceil((windowMs − (now −
oldest remaining timestamp)) / 1000) seconds. -/
def rlWaitHint (rl : RateLimiter) (action : String) (now : Int) : Int :=
  jsCeil (((rl.timeWindowMs - (now - (rlInWindow rl action now).headD 0) : Int) : ℚ) / 1000)

/-- The result of canMakeRequest depends on the limiter state only through
its configuration and the history under the called key. -/
theorem canMakeRequest_result_congr (rl1 rl2 : RateLimiter) (action : String) (now : Int)
    (hmax : rl1.maxRequests = rl2.maxRequests) (hwin : rl1.timeWindowMs = rl2.timeWindowMs)
    (hh : alLookup (action ++ "_requests") rl1.requests
      = alLookup (action ++ "_requests") rl2.requests) :
    (canMakeRequest rl1 action now).1 = (canMakeRequest rl2 action now).1 := by
  rw [canMakeRequest, canMakeRequest, hmax, hwin, hh]
  split <;> rfl

/-- Scenario states: a limiter of 3 requests per 1000 ms driven through
calls at times 0, 100, 200 (all admitted), 300 (refused) and 1001. -/
def wRL0 : RateLimiter := ⟨3, 1000, []⟩

def wRL1 : RateLimiter := (canMakeRequest wRL0 "add-item" 0).2

def wRL2 : RateLimiter := (canMakeRequest wRL1 "add-item" 100).2

def wRL3 : RateLimiter := (canMakeRequest wRL2 "add-item" 200).2

def wRL4 : RateLimiter := (canMakeRequest wRL3 "add-item" 300).2

/-- Claim C7: canMakeRequest discards history older than the window, fails
with the ceil((windowMs − (now − oldest remaining))/1000)-second
TooManyRequests hint exactly when the surviving count has reached the
configured maximum, and otherwise records the current time and succeeds;
with max 3 per 1000 ms three calls succeed, a fourth within the window
fails with a 1-second hint, a call after the window elapses succeeds
again; and calls under distinct action keys never affect each other. -/
theorem claim_C7 :
    (∀ (rl : RateLimiter) (action : String) (now : Int),
      rl.maxRequests ≤ (rlHistory rl action).countP (fun t => now - t < rl.timeWindowMs) →
      (canMakeRequest rl action now).1 = .error (.tooManyRequests (rlWaitHint rl action now)) ∧
      rlHistory (canMakeRequest rl action now).2 action = rlInWindow rl action now) ∧
    (∀ (rl : RateLimiter) (action : String) (now : Int),
      (rlHistory rl action).countP (fun t => now - t < rl.timeWindowMs) < rl.maxRequests →
      (canMakeRequest rl action now).1 = .ok true ∧
      rlHistory (canMakeRequest rl action now).2 action = rlInWindow rl action now ++ [now]) ∧
    ((canMakeRequest wRL0 "add-item" 0).1 = .ok true ∧
      (canMakeRequest wRL1 "add-item" 100).1 = .ok true ∧
      (canMakeRequest wRL2 "add-item" 200).1 = .ok true ∧
      (canMakeRequest wRL3 "add-item" 300).1 = .error (.tooManyRequests 1) ∧
      (canMakeRequest wRL4 "add-item" 1001).1 = .ok true) ∧
    (∀ (rl : RateLimiter) (a b : String) (now now2 : Int), (a == b) = false →
      rlHistory (canMakeRequest rl a now).2 b = rlHistory rl b ∧
      (canMakeRequest (canMakeRequest rl a now).2 b now2).1
        = (canMakeRequest rl b now2).1) := by
  refine ⟨?_, ?_, ?_, ?_⟩
  · intro rl action now h
    have hlen : rl.maxRequests ≤
        (((alLookup (action ++ "_requests") rl.requests).getD []).filter
          (fun t => now - t < rl.timeWindowMs)).length := by
      rw [← List.countP_eq_length_filter]
      exact h
    constructor
    · simp only [canMakeRequest]
      rw [if_pos hlen]
      rfl
    · simp only [canMakeRequest]
      rw [if_pos hlen]
      rw [rlHistory]
      dsimp only
      rw [alLookup_alSet_eq]
      rfl
  · intro rl action now h
    rw [rlHistory] at h
    have hlen : ¬ (rl.maxRequests ≤
        (((alLookup (action ++ "_requests") rl.requests).getD []).filter
          (fun t => now - t < rl.timeWindowMs)).length) := by
      rw [← List.countP_eq_length_filter]
      omega
    constructor
    · simp only [canMakeRequest]
      rw [if_neg hlen]
    · simp only [canMakeRequest]
      rw [if_neg hlen]
      rw [rlHistory]
      dsimp only
      rw [alLookup_alSet_eq]
      rfl
  · refine ⟨rfl, rfl, rfl, ?_, rfl⟩
    have h1 : (canMakeRequest wRL3 "add-item" 300).1
        = .error (.tooManyRequests (jsCeil (((1000 - (300 - 0) : Int) : ℚ) / 1000))) := rfl
    rw [h1]
    have h2 : jsCeil (((1000 - (300 - 0) : Int) : ℚ) / 1000) = 1 := by
      rw [jsCeil, ratFloor_eq_floor]
      norm_num
    rw [h2]
  · intro rl a b now now2 h
    have hk := string_append_ne a b "_requests" h
    have key2 : alLookup (b ++ "_requests") (canMakeRequest rl a now).2.requests
        = alLookup (b ++ "_requests") rl.requests := by
      simp only [canMakeRequest]
      split
      · exact alLookup_alSet_ne _ _ _ _ hk
      · exact alLookup_alSet_ne _ _ _ _ hk
    have hm : (canMakeRequest rl a now).2.maxRequests = rl.maxRequests := by
      simp only [canMakeRequest]
      split <;> rfl
    have hw : (canMakeRequest rl a now).2.timeWindowMs = rl.timeWindowMs := by
      simp only [canMakeRequest]
      split <;> rfl
    exact ⟨by rw [rlHistory, rlHistory, key2],
      canMakeRequest_result_congr _ _ _ _ hm hw key2⟩

/-- Concrete limiter used by the C7 witness: max 1 per 1000 ms, one recorded
call at 500 under key "a". -/
def wRLw : RateLimiter := ⟨1, 1000, [("a_requests", [500])]⟩

/-- Witness for claim C7: at time 600 the "a" action is refused with the
wait hint, and a call on action "b" leaves the "a" history untouched. -/
theorem claim_C7_witness :
    (canMakeRequest wRLw "a" 600).1
      = .error (.tooManyRequests (rlWaitHint wRLw "a" 600)) ∧
    rlHistory (canMakeRequest wRLw "b" 600).2 "a" = rlHistory wRLw "a" :=
  ⟨(claim_C7.1 wRLw "a" 600 (by decide)).1,
    (claim_C7.2.2.2 wRLw "b" "a" 600 0 (by decide)).1⟩

end CartEngine

namespace CartEngine

/-! ## Claim C2: InsufficientStock aborts checkout before any write -/

/-- The first selected item failing the stock check names its product. -/
def firstInsufficientName (products : List (String × Product)) :
    List DBCartItem → Option String
  | [] => none
  | item :: rest =>
    match alLookup item.productId products with
    | none => none
    | some p =>
      if p.stock < item.quantity then some p.name
      else firstInsufficientName products rest

/-- When every selected item's product exists and some selected item's
quantity exceeds its stock, the stock-check loop aborts with
InsufficientStock naming the first offending product. -/
theorem stockCheck_err_of (products : List (String × Product)) :
    ∀ sel : List DBCartItem,
      (∀ it ∈ sel, ∃ p, alLookup it.productId products = some p) →
      (∃ it ∈ sel, ∀ p, alLookup it.productId products = some p → p.stock < it.quantity) →
      ∃ nm, firstInsufficientName products sel = some nm ∧
        stockCheck products sel = .error (.insufficientStock nm) := by
  intro sel
  induction sel with
  | nil =>
    intro _ hbad
    obtain ⟨it, hit, -⟩ := hbad
    exact absurd hit (List.not_mem_nil it)
  | cons item rest ih =>
    intro hex hbad
    obtain ⟨p, hp⟩ := hex item (List.mem_cons_self item rest)
    by_cases hps : p.stock < item.quantity
    · refine ⟨p.name, ?_, ?_⟩
      · rw [firstInsufficientName, hp]
        dsimp only
        rw [if_pos hps]
      · rw [stockCheck, hp]
        dsimp only
        rw [if_pos hps]
    · have hbad2 : ∃ it ∈ rest, ∀ q, alLookup it.productId products = some q →
          q.stock < it.quantity := by
        obtain ⟨it, hit, hall⟩ := hbad
        rcases List.mem_cons.mp hit with heq | hmem
        · subst heq
          exact absurd (hall p hp) hps
        · exact ⟨it, hmem, hall⟩
      obtain ⟨nm, h1, h2⟩ := ih (fun it hit => hex it (List.mem_cons_of_mem item hit)) hbad2
      refine ⟨nm, ?_, ?_⟩
      · rw [firstInsufficientName, hp]
        dsimp only
        rw [if_neg hps]
        exact h1
      · rw [stockCheck, hp]
        dsimp only
        rw [if_neg hps]
        exact h2

/-- Claim C2: for every cart and non-empty selection of its items whose
products exist, if some selected item's quantity exceeds its product's
stock, checkout fails with InsufficientStock naming the first offending
product and the state — the order store included — is exactly the state
before the call. -/
theorem claim_C2 : ∀ (st : DBState) (u : String) (ids : List String)
    (addr pay fid now : String) (cart : Cart),
    ids.isEmpty = false →
    (st.carts.map Prod.snd).find? (fun c => c.userId == u) = some cart →
    (cart.items.filter (fun it => ids.contains it.id)).isEmpty = false →
    (∀ it ∈ cart.items.filter (fun it => ids.contains it.id),
      ∃ p, alLookup it.productId st.products = some p) →
    (∃ it ∈ cart.items.filter (fun it => ids.contains it.id),
      ∀ p, alLookup it.productId st.products = some p → p.stock < it.quantity) →
    ∃ nm, firstInsufficientName st.products
        (cart.items.filter (fun it => ids.contains it.id)) = some nm ∧
      checkout st u ids addr pay fid now = (.error (.insufficientStock nm), st) := by
  intro st u ids addr pay fid now cart hne hcart hsel hex hbad
  obtain ⟨nm, hfn, hsc⟩ := stockCheck_err_of st.products _ hex hbad
  refine ⟨nm, hfn, ?_⟩
  rw [checkout, hne]
  simp only [Bool.false_eq_true, if_false]
  rw [hcart]
  dsimp only
  rw [hsel]
  simp only [Bool.false_eq_true, if_false]
  rw [hsc]

/-- The concrete state of the C2 witness: one product "Widget" with stock
1, one cart item requesting quantity 5 of it. -/
def wItemC2 : DBCartItem := ⟨"a", "1", 5, none, 5, "t", none⟩

def wCartC2 : Cart := ⟨"c", "u", [wItemC2], 0, "t"⟩

def wStC2 : DBState := ⟨[("1", ⟨"Widget", 5, 1, "t"⟩)], [("c", wCartC2)], []⟩

/-- Witness for claim C2: the 5-of-stock-1 selection is refused with
InsufficientStock naming "Widget" and the state is untouched. -/
theorem claim_C2_witness :
    checkout wStC2 "u" ["a"] "addr" "card" "o1" "t2"
      = (.error (.insufficientStock "Widget"), wStC2) := by
  have hfil : wCartC2.items.filter (fun it => ["a"].contains it.id) = [wItemC2] := rfl
  obtain ⟨nm, hfn, hck⟩ := claim_C2 wStC2 "u" ["a"] "addr" "card" "o1" "t2" wCartC2
    (by decide) rfl (by rw [hfil]; rfl)
    (by
      rw [hfil]
      intro it hit
      rw [List.mem_singleton] at hit
      subst hit
      exact ⟨⟨"Widget", 5, 1, "t"⟩, rfl⟩)
    (by
      rw [hfil]
      refine ⟨wItemC2, List.mem_singleton.mpr rfl, ?_⟩
      intro p hp
      have hp2 : some (⟨"Widget", 5, 1, "t"⟩ : Product) = some p := hp
      injection hp2 with hp3
      rw [← hp3]
      decide)
  have hnm : nm = "Widget" := by
    rw [hfil] at hfn
    have : firstInsufficientName wStC2.products [wItemC2] = some "Widget" := rfl
    rw [this] at hfn
    injection hfn with h
    exact h.symm
  rw [hnm] at hck
  exact hck

/-! ## Claim C1: stock nonnegativity across checkout -/

/-- Every binding of an association list satisfying a property pointwise
satisfies it at every successful lookup. -/
theorem alLookup_all_of {α : Type} (P : α → Prop) :
    ∀ l : List (String × α), (∀ e ∈ l, P e.2) → ∀ k v, alLookup k l = some v → P v := by
  intro l
  induction l with
  | nil =>
    intro _ k v h
    rw [alLookup] at h
    exact absurd h (by simp)
  | cons a rest ih =>
    intro hl k v h
    rw [alLookup] at h
    split at h
    · injection h with h2
      rw [← h2]
      exact hl a (List.mem_cons_self a rest)
    · exact ih (fun e he => hl e (List.mem_cons_of_mem a he)) k v h

/-- A successful stock check certifies, for each selected item, an existing
product with sufficient stock. -/
theorem stockCheck_ok_facts (products : List (String × Product)) :
    ∀ sel : List DBCartItem, stockCheck products sel = .ok () →
      ∀ it ∈ sel, ∃ p, alLookup it.productId products = some p ∧ it.quantity ≤ p.stock := by
  intro sel
  induction sel with
  | nil =>
    intro _ it hit
    exact absurd hit (List.not_mem_nil it)
  | cons item rest ih =>
    intro h it hit
    rw [stockCheck] at h
    cases hp : alLookup item.productId products with
    | none =>
      rw [hp] at h
      exact absurd h (by simp)
    | some p =>
      rw [hp] at h
      dsimp only at h
      by_cases hps : p.stock < item.quantity
      · rw [if_pos hps] at h
        exact absurd h (by simp)
      · rw [if_neg hps] at h
        rcases List.mem_cons.mp hit with heq | hmem
        · subst heq
          exact ⟨p, hp, not_lt.mp hps⟩
        · exact ih h it hmem

/-- The stock-decrement loop keeps every stock nonnegative, PROVIDED the
selected items reference pairwise-distinct products and each had stock at
least its quantity when the (single, up-front) stock check ran. -/
theorem decreaseAll_nonneg : ∀ (sel : List DBCartItem) (products : List (String × Product))
    (now : String),
    (∀ k p, alLookup k products = some p → 0 ≤ p.stock) →
    (∀ it ∈ sel, ∃ p, alLookup it.productId products = some p ∧ it.quantity ≤ p.stock) →
    sel.Pairwise (fun a b => a.productId ≠ b.productId) →
    ∀ k p, alLookup k (decreaseAll sel now products) = some p → 0 ≤ p.stock := by
  intro sel
  induction sel with
  | nil =>
    intro products now hall _ _ k p h
    rw [decreaseAll] at h
    exact hall k p h
  | cons item rest ih =>
    intro products now hall hsel hpw
    obtain ⟨p0, hp0, hq0⟩ := hsel item (List.mem_cons_self item rest)
    obtain ⟨hhead, hrest⟩ := List.pairwise_cons.mp hpw
    intro k p h
    rw [decreaseAll] at h
    have hps2 : decreaseStock item.productId item.quantity now products
        = alSet item.productId
            { p0 with stock := p0.stock - item.quantity, updatedAt := now } products := by
      rw [decreaseStock, hp0]
    rw [hps2] at h
    refine ih _ now ?_ ?_ hrest k p h
    · intro k2 p2 h2
      by_cases hk : (item.productId == k2) = true
      · have hkk : item.productId = k2 := eq_of_beq hk
        rw [← hkk, alLookup_alSet_eq] at h2
        injection h2 with h3
        rw [← h3]
        dsimp only
        omega
      · have hk2 : (item.productId == k2) = false := by
          revert hk
          cases (item.productId == k2) <;> simp
        rw [alLookup_alSet_ne _ _ _ _ hk2] at h2
        exact hall k2 p2 h2
    · intro it hit
      obtain ⟨q, hq, hq2⟩ := hsel it (List.mem_cons_of_mem item hit)
      have hne : (item.productId == it.productId) = false :=
        beq_eq_false_iff_ne.mpr (hhead it hit)
      rw [alLookup_alSet_ne _ _ _ _ hne]
      exact ⟨q, hq, hq2⟩

/-- Two distinct cart entries (different variants) of the SAME product, each
within stock on its own. -/
def wItemA1 : DBCartItem := ⟨"a", "1", 2, none, 5, "t", none⟩

def wItemB1 : DBCartItem := ⟨"b", "1", 2, some (.obj (.cons "color" (.str "red") .nil)), 5, "t", none⟩

def wCartC1 : Cart := ⟨"c", "u", [wItemA1, wItemB1], 0, "t"⟩

/-- Initial state of the C1 counterexample: product "1" has stock 3. -/
def wStC1 : DBState := ⟨[("1", ⟨"Widget", 5, 3, "t"⟩)], [("c", wCartC1)], []⟩

/-- Claim C1, counterexample to the claim as stated: from a state where
every stock is a nonnegative integer (stock 3), checking out two selected
cart entries of the SAME product (quantity 2 each) passes the per-item
stock check (3 ≥ 2 for each), succeeds, and leaves the product's stock at
-1: the per-item check does not aggregate duplicate product references, so
stock does NOT remain nonnegative. -/
theorem claim_C1_counterexample :
    alLookup "1" wStC1.products = some ⟨"Widget", 5, 3, "t"⟩ ∧
    (checkout wStC1 "u" ["a", "b"] "addr" "card" "o1" "t2").1
      = .ok ⟨true, "o1", JNum.nan, "Order placed successfully"⟩ ∧
    alLookup "1" ((checkout wStC1 "u" ["a", "b"] "addr" "card" "o1" "t2").2).products
      = some ⟨"Widget", 5, -1, "t2"⟩ ∧
    ¬ (0 ≤ (-1 : Int)) := by
  exact ⟨rfl, rfl, rfl, by decide⟩

/-- Claim C1, amended: stock stays a nonnegative integer across checkout
PROVIDED the selected cart entries reference pairwise-distinct products
(each product is decremented at most once, by a quantity the up-front check
bounded by its stock); with duplicate product references among the
selection, the per-item check can pass while the combined decrement drives
the stock negative. -/
theorem claim_C1 : ∀ (st : DBState) (u : String) (ids : List String)
    (addr pay fid now : String) (cart : Cart),
    (st.carts.map Prod.snd).find? (fun c => c.userId == u) = some cart →
    (∀ k p, alLookup k st.products = some p → 0 ≤ p.stock) →
    stockCheck st.products (cart.items.filter (fun it => ids.contains it.id)) = .ok () →
    (cart.items.filter (fun it => ids.contains it.id)).Pairwise
      (fun a b => a.productId ≠ b.productId) →
    ∀ k p, alLookup k ((checkout st u ids addr pay fid now).2).products
      = some p → 0 ≤ p.stock := by
  intro st u ids addr pay fid now cart hcart hall hsc hpw
  rw [checkout]
  cases hni : ids.isEmpty with
  | true =>
    simp only [if_true]
    exact hall
  | false =>
    simp only [Bool.false_eq_true, if_false]
    rw [hcart]
    dsimp only
    cases hsel : (cart.items.filter (fun it => ids.contains it.id)).isEmpty with
    | true =>
      simp only [if_true]
      exact hall
    | false =>
      simp only [Bool.false_eq_true, if_false]
      rw [hsc]
      dsimp only
      exact decreaseAll_nonneg _ st.products now hall
        (stockCheck_ok_facts st.products _ hsc) hpw

/-- The C1 witness state: a single selected entry of product "1". -/
def wCartW1 : Cart := ⟨"c", "u", [wItemA1], 0, "t"⟩

def wStW1 : DBState := ⟨[("1", ⟨"Widget", 5, 3, "t"⟩)], [("c", wCartW1)], []⟩

/-- Witness for claim C1: after the distinct-products checkout the looked-up
stock (3 − 2 = 1) is nonnegative. -/
theorem claim_C1_witness : (0 : Int) ≤ (⟨"Widget", 5, 1, "t2"⟩ : Product).stock := by
  refine claim_C1 wStW1 "u" ["a"] "addr" "card" "o1" "t2" wCartW1 rfl ?_ rfl ?_
    "1" ⟨"Widget", 5, 1, "t2"⟩ (by decide)
  · intro k p h
    refine alLookup_all_of (fun q => 0 ≤ q.stock)
      [("1", (⟨"Widget", 5, 3, "t"⟩ : Product))] ?_ k p h
    intro e he
    rw [List.mem_singleton] at he
    subst he
    decide
  · have hfil : wCartW1.items.filter (fun it => ["a"].contains it.id) = [wItemA1] := rfl
    rw [hfil]
    exact List.pairwise_singleton _ _

end CartEngine

namespace CartEngine

/-! ## Claim C9: checkout price computation -/

/-- The C9 failing input: one cart item of product "1" (price 50, quantity
2, ample stock), stored by the database layer and therefore WITHOUT a
subtotal field. -/
def wItemC9 : DBCartItem := ⟨"a", "1", 2, none, 50, "t", none⟩

def wCartC9 : Cart := ⟨"c", "u", [wItemC9], 0, "t"⟩

def wStC9 : DBState := ⟨[("1", ⟨"Widget", 50, 50, "t"⟩)], [("c", wCartC9)], []⟩

/-- Claim C9, evaluation at the failing input: checkout reads the subtotal
property off raw database cart items, which db.carts.addItem never stores;
the undefined reads make subtotal, tax and total NaN.  The returned total
and the recorded order total are NaN, whereas the claimed figures (the
spec's chain, matching the CartItem.subtotal field resolver price ×
quantity) give 100 + 10 + 0 = 110. -/
theorem claim_C9 :
    (checkout wStC9 "u" ["a"] "addr" "card" "o1" "t2").1
      = .ok ⟨true, "o1", JNum.nan, "Order placed successfully"⟩ ∧
    (alLookup "o1" ((checkout wStC9 "u" ["a"] "addr" "card" "o1" "t2").2).orders).map
      (fun o => o.total) = some JNum.nan ∧
    specCheckoutTotal (wCartC9.items.filter (fun it => ["a"].contains it.id)) = 110 ∧
    JNum.nan ≠ JNum.num 110 := by
  refine ⟨rfl, rfl, ?_, by decide⟩
  have hfil : wCartC9.items.filter (fun it => ["a"].contains it.id) = [wItemC9] := rfl
  rw [hfil]
  have hsub : specCheckoutSubtotal [wItemC9] = 100 := by
    rw [specCheckoutSubtotal]
    show (0 : ℚ) + wItemC9.price * (wItemC9.quantity : ℚ) = 100
    norm_num [wItemC9]
  rw [specCheckoutTotal, hsub]
  norm_num

/-! ## Claim C10: checkout ignores the cart's discount -/

/-- A cart item CARRYING a subtotal property (as the backend's own tests
construct them), to exhibit the Cart.total field resolver's dependence on
the discount. -/
def wCItemD : DBCartItem := ⟨"i1", "1", 2, none, 100, "t", some 200⟩

def wCartD0 : Cart := ⟨"c", "u", [wCItemD], 0, "t"⟩

def wCartD50 : Cart := ⟨"c", "u", [wCItemD], 50, "t"⟩

/-- Claim C10: the result of checkout — its total included — is identical
for any two carts that differ only in their discount field (checkout never
reads cart.discount), even though the Cart.total field resolver DOES
subtract the discount amount before tax: over the same subtotal-200 item it
yields 220 at discount 0 but 110 at discount 50. -/
theorem claim_C10 :
    (∀ (products : List (String × Product)) (orders : List (String × Order))
      (c : Cart) (d d2 : ℚ) (u : String) (ids : List String) (addr pay fid now : String),
      (checkout ⟨products, [(c.id, { c with discount := d })], orders⟩
          u ids addr pay fid now).1
        = (checkout ⟨products, [(c.id, { c with discount := d2 })], orders⟩
          u ids addr pay fid now).1) ∧
    cartTotalResolve wCartD0 = JNum.num 220 ∧
    cartTotalResolve wCartD50 = JNum.num 110 ∧
    JNum.num 220 ≠ JNum.num 110 := by
  refine ⟨?_, ?_, ?_, by intro h; injection h with h2; norm_num at h2⟩
  · intro products orders c d d2 u ids addr pay fid now
    rw [checkout, checkout]
    cases hni : ids.isEmpty with
    | true => rfl
    | false =>
      simp only [Bool.false_eq_true, if_false]
      dsimp only [List.map_cons, List.map_nil]
      cases hu : (c.userId == u) with
      | false =>
        rw [List.find?_cons_of_neg _ (by simpa using hu),
          List.find?_cons_of_neg _ (by simpa using hu)]
        rfl
      | true =>
        rw [List.find?_cons_of_pos _ (by simpa using hu),
          List.find?_cons_of_pos _ (by simpa using hu)]
        dsimp only
        cases hsel : (c.items.filter (fun it => ids.contains it.id)).isEmpty with
        | true => rfl
        | false =>
          simp only [Bool.false_eq_true, if_false]
          cases hsc : stockCheck products (c.items.filter (fun it => ids.contains it.id)) with
          | error e => rfl
          | ok r => rfl
  · norm_num [cartTotalResolve, wCartD0, wCItemD, jadd, jsub, jmulQ, jge, jnumOfProp]
  · norm_num [cartTotalResolve, wCartD50, wCItemD, jadd, jsub, jmulQ, jge, jnumOfProp]

end CartEngine

namespace CartEngine

/-! ## Claim C8: the object sanitizers -/

theorem except_map_error {ε α β : Type} (f : α → β) (e : ε) :
    (Except.error e : Except ε α).map f = .error e := rfl

theorem except_map_ok {ε α β : Type} (f : α → β) (x : α) :
    (Except.ok x : Except ε α).map f = .ok (f x) := rfl

theorem except_isOk_map {ε α β : Type} (f : α → β) (e : Except ε α) :
    (e.map f).isOk = e.isOk := by
  cases e <;> rfl

theorem except_isOk_iff {ε α : Type} (e : Except ε α) :
    e.isOk = true ↔ ∃ a, e = .ok a := by
  cases e <;> simp [Except.isOk, Except.toBool]

/-- A chain of k nested single-key objects around a tagged string leaf. -/
def nestChain : Nat → JSValue
  | 0 => .str "<b>deep</b>"
  | n + 1 => .obj (.cons "k" (nestChain n) .nil)

mutual

/-- Nesting depth of a JS value: 0 for primitives, one more than the
deepest member for arrays and objects. -/
def jsDepth : JSValue → Nat
  | .arr elems => 1 + jsDepthList elems
  | .obj es => 1 + jsDepthEntries es
  | _ => 0

def jsDepthList : JSList → Nat
  | .nil => 0
  | .cons v rest => max (jsDepth v) (jsDepthList rest)

def jsDepthEntries : JSEntries → Nat
  | .nil => 0
  | .cons _ v rest => max (jsDepth v) (jsDepthEntries rest)

end

/-- Array elements all sanitize when their depths fit under the cap. -/
theorem listGo_isOk (fuel : Nat)
    (hobj : ∀ v d, jsDepth v < fuel → jsDepth v + d ≤ 5 →
      (sanitizeObjectSrvGo fuel v d).isOk = true) :
    ∀ (es : JSList) (d2 : Nat), jsDepthList es < fuel → jsDepthList es + d2 + 1 ≤ 5 →
      (sanitizeListSrvGo fuel es d2).isOk = true
  | .nil, d2, _, _ => by simp [sanitizeListSrvGo, Except.isOk, Except.toBool]
  | .cons v rest, d2, h1, h2 => by
    have hv1 : jsDepth v ≤ jsDepthList (.cons v rest) := by
      rw [jsDepthList]; exact le_max_left _ _
    have hr1 : jsDepthList rest ≤ jsDepthList (.cons v rest) := by
      rw [jsDepthList]; exact le_max_right _ _
    obtain ⟨w, hw⟩ := (except_isOk_iff _).mp (hobj v (d2 + 1) (by omega) (by omega))
    obtain ⟨ws, hws⟩ := (except_isOk_iff _).mp
      (listGo_isOk fuel hobj rest d2 (by omega) (by omega))
    simp [sanitizeListSrvGo, hw, hws, except_bind_ok, Except.isOk, Except.toBool]

/-- Object entries all sanitize when their depths fit under the cap. -/
theorem entriesGo_isOk (fuel : Nat)
    (hobj : ∀ v d, jsDepth v < fuel → jsDepth v + d ≤ 5 →
      (sanitizeObjectSrvGo fuel v d).isOk = true) :
    ∀ (es : JSEntries) (d2 : Nat), jsDepthEntries es < fuel →
      jsDepthEntries es + d2 + 1 ≤ 5 → (sanitizeEntriesSrvGo fuel es d2).isOk = true
  | .nil, d2, _, _ => by simp [sanitizeEntriesSrvGo, Except.isOk, Except.toBool]
  | .cons k v rest, d2, h1, h2 => by
    have hv1 : jsDepth v ≤ jsDepthEntries (.cons k v rest) := by
      rw [jsDepthEntries]; exact le_max_left _ _
    have hr1 : jsDepthEntries rest ≤ jsDepthEntries (.cons k v rest) := by
      rw [jsDepthEntries]; exact le_max_right _ _
    obtain ⟨ws, hws⟩ := (except_isOk_iff _).mp
      (entriesGo_isOk fuel hobj rest d2 (by omega) (by omega))
    cases hck : (sanitizeString 50 k == "") with
    | true => simp [sanitizeEntriesSrvGo, hck, hws, Except.isOk, Except.toBool]
    | false =>
      obtain ⟨w, hw⟩ := (except_isOk_iff _).mp (hobj v (d2 + 1) (by omega) (by omega))
      simp [sanitizeEntriesSrvGo, hck, hw, hws, except_bind_ok,
        Except.isOk, Except.toBool]

/-- The server sanitizer succeeds on every value whose residual depth fits
under the cap (fuel permitting). -/
theorem srvGo_isOk : ∀ (fuel : Nat) (v : JSValue) (d : Nat),
    jsDepth v < fuel → jsDepth v + d ≤ 5 → (sanitizeObjectSrvGo fuel v d).isOk = true := by
  intro fuel
  induction fuel with
  | zero =>
    intro v d hf _
    exact absurd hf (by omega)
  | succ fuel ih =>
    intro v d hf hd
    have hd5 : ¬ (5 < d) := by omega
    cases v with
    | null => simp [sanitizeObjectSrvGo, hd5, Except.isOk, Except.toBool]
    | str s => simp [sanitizeObjectSrvGo, hd5, Except.isOk, Except.toBool]
    | num q => simp [sanitizeObjectSrvGo, hd5, Except.isOk, Except.toBool]
    | bool b => simp [sanitizeObjectSrvGo, hd5, Except.isOk, Except.toBool]
    | arr elems =>
      rw [jsDepth] at hf hd
      simp only [sanitizeObjectSrvGo, hd5, if_false]
      rw [except_isOk_map]
      exact listGo_isOk fuel ih elems d (by omega) (by omega)
    | obj es =>
      rw [jsDepth] at hf hd
      simp only [sanitizeObjectSrvGo, hd5, if_false]
      rw [except_isOk_map]
      exact entriesGo_isOk fuel ih es d (by omega) (by omega)

/-- Claim C8, counterexample to the claim as stated: the claim says the
object sanitizer recursively sanitizes at EVERY nesting level, rejects only
beyond 10 levels, and maps non-objects to an empty mapping.  The server
sanitizeObject rejects a value nested only 6 levels (its cap is 5, not 10)
and returns primitives unchanged rather than as an empty mapping, while the
frontend sanitize.object accepts a 12-level value without rejection and
passes the nested levels through UNSANITIZED: the tagged leaf string —
which sanitizing would shrink to "deep" — survives verbatim below the top
level. -/
theorem claim_C8_counterexample :
    sanitizeObjectSrv (nestChain 6) = .error "Object nesting too deep" ∧
    sanitizeObjectSrv (.num 7) = .ok (.num 7) ∧
    sanitizeObjectFE (nestChain 12) = .obj (.cons "k" (nestChain 11) .nil) ∧
    sanitizeText "<b>deep</b>" = "deep" := by
  refine ⟨?_, ?_, rfl, by decide⟩
  · have hk : sanitizeString 50 "k" = "k" := by decide
    have hne : (("k" : String) == "") = false := by decide
    simp [sanitizeObjectSrv, sanitizeObjectSrvGo, sanitizeEntriesSrvGo, nestChain,
      hk, hne, except_bind_ok, except_bind_error, except_map_error, except_map_ok]
  · simp [sanitizeObjectSrv, sanitizeObjectSrvGo]

/-- Claim C8, amended: the repository has two object sanitizers and
neither behaves as claimed.  The frontend sanitize.object normalizes
non-object input (null, strings, numbers, booleans) to an empty mapping
but sanitizes only the top level — it never rejects by depth and passes
nested values through unchanged.  The server sanitizeObject recursively
sanitizes keys and string values but its depth cap is 5 (rejecting a
6-level value), not 10, it accepts every value of depth at most 5, and it
returns non-object primitives unchanged instead of an empty mapping. -/
theorem claim_C8 :
    (sanitizeObjectFE .null = .obj .nil) ∧
    (∀ s, sanitizeObjectFE (.str s) = .obj .nil) ∧
    (∀ q, sanitizeObjectFE (.num q) = .obj .nil) ∧
    (∀ b, sanitizeObjectFE (.bool b) = .obj .nil) ∧
    (sanitizeObjectFE (nestChain 12) = .obj (.cons "k" (nestChain 11) .nil)) ∧
    (∀ v, jsDepth v ≤ 5 → (sanitizeObjectSrv v).isOk = true) ∧
    (sanitizeObjectSrv (nestChain 6) = .error "Object nesting too deep") ∧
    (∀ q, sanitizeObjectSrv (.num q) = .ok (.num q)) ∧
    (sanitizeObjectSrv .null = .ok .null) := by
  refine ⟨rfl, fun s => rfl, fun q => rfl, fun b => rfl, rfl, ?_, ?_, ?_, ?_⟩
  · intro v hv
    exact srvGo_isOk 8 v 0 (by omega) (by omega)
  · have hk : sanitizeString 50 "k" = "k" := by decide
    have hne : (("k" : String) == "") = false := by decide
    simp [sanitizeObjectSrv, sanitizeObjectSrvGo, sanitizeEntriesSrvGo, nestChain,
      hk, hne, except_bind_ok, except_bind_error, except_map_error, except_map_ok]
  · intro q
    simp [sanitizeObjectSrv, sanitizeObjectSrvGo]
  · simp [sanitizeObjectSrv, sanitizeObjectSrvGo]

end CartEngine
